import Mathlib

/-!
# Verification of the `cut.py` selection engine

This file is a shallow embedding of the core of `src/cut.py`, a Python
reimplementation of the Unix `cut` utility, together with theorems about
the embedded functions.

Records and specification strings are modelled as `List Char` (one entry
per Unicode scalar value, exactly Python's `str`).  Python's `int` overflows
never, so integers are plain `Int`/`Nat`.  Fallible operations
(`IndexError`, `ValueError`) are modelled with `Option`/`Except`.

Modelling notes, referenced by the doc comments below:
* `str.split(sep)` for a nonempty separator splits on non-overlapping
  occurrences left to right; for an empty separator Python raises
  `ValueError`.  The embedding `pySplit` uses fuel (one unit per consumed
  character) so the kernel can evaluate it; with an empty separator it
  never matches, and the theorems about `process_fields` that could be
  affected carry a nonemptiness hypothesis.
* Python's `int(s)` strips whitespace, allows one optional sign, and then
  a digit sequence in which underscores may appear between digits.  The
  embedding `pyInt` models this for ASCII digits (the claims never involve
  non-ASCII numerals).
* Python sequence indexing `xs[i]` succeeds for `-len xs ≤ i < len xs`
  (negative indices count from the end) and raises `IndexError` otherwise;
  `pyIndex` returns `none` exactly in the `IndexError` cases.
-/

/-- Does `sub` occur as a prefix of `xs`?  Model of Python
`xs.startswith(sub)`, used to locate separator occurrences. -/
def strStarts (sub : List Char) : List Char → Bool :=
  fun xs =>
    match sub, xs with
    | [], _ => true
    | _ :: _, [] => false
    | a :: as, b :: bs => a == b && strStarts as bs

/-- Does `sub` occur as a contiguous substring of `xs`?  Model of Python
`sub in xs` for strings. -/
def strContains (sub : List Char) : List Char → Bool
  | [] => strStarts sub []
  | c :: rest => strStarts sub (c :: rest) || strContains sub rest

/-- Model of Python `str.strip()`: drop whitespace from both ends.
(Python also strips some non-ASCII whitespace; the claims never involve
it.) -/
def pyStrip (xs : List Char) : List Char :=
  ((xs.dropWhile Char.isWhitespace).reverse.dropWhile Char.isWhitespace).reverse

/-- Model of Python `part.split(sep, 1)` when `sep ∈ part`: the pieces
before and after the first occurrence of the character `sep`.  (`parse_list`
only calls it after checking `'-' in part`.) -/
def splitOnce (sep : Char) : List Char → List Char × List Char
  | [] => ([], [])
  | c :: rest =>
    if c = sep then ([], rest)
    else ((splitOnce sep rest).1.cons c, (splitOnce sep rest).2)

/-- Checks the tail of a Python integer literal: every character is a
digit, and underscores appear only between digits. -/
def validDigitsAux : List Char → Bool
  | [] => true
  | ['_'] => false
  | '_' :: c :: cs => c.isDigit && validDigitsAux cs
  | c :: cs => c.isDigit && validDigitsAux cs

/-- Numeric value of a digit character. -/
def digitVal (c : Char) : Nat := c.toNat - '0'.toNat

/-- Model of the digit-sequence part of Python `int(s)`: the sequence must
be nonempty, start with a digit, and contain underscores only between
digits; its value reads the digits in base 10. -/
def pyDigits (cs : List Char) : Option Nat :=
  match cs with
  | [] => none
  | c :: _ =>
    if c.isDigit && validDigitsAux cs then
      some ((cs.filter (fun d => d ≠ '_')).foldl (fun n d => 10 * n + digitVal d) 0)
    else none

/-- Model of Python `int(s)` on a string: strip whitespace, one optional
sign, then a digit sequence; `none` models `ValueError`. -/
def pyInt (s : List Char) : Option Int :=
  match pyStrip s with
  | '+' :: cs => (pyDigits cs).map (fun n => (n : Int))
  | '-' :: cs => (pyDigits cs).map (fun n => -(n : Int))
  | cs => (pyDigits cs).map (fun n => (n : Int))

/-- Worker for `pySplit`, structurally recursive on `fuel` so that the
kernel can evaluate it.  Each step consumes at least one character of
`xs` when `sep` is nonempty, so `fuel = xs.length` always suffices and
the `0, c :: rest` fallback is unreachable in `pySplit`. -/
def pySplitGo (sep : List Char) : Nat → List Char → List Char → List (List Char)
  | _, [], acc => [acc.reverse]
  | 0, xs, acc => [acc.reverse ++ xs]
  | fuel + 1, c :: rest, acc =>
    if sep ≠ [] ∧ strStarts sep (c :: rest) = true then
      acc.reverse :: pySplitGo sep fuel (List.drop sep.length (c :: rest)) []
    else
      pySplitGo sep fuel rest (c :: acc)

/-- Model of Python `line.split(sep)` for a nonempty separator: split on
the non-overlapping occurrences of `sep`, left to right.  (Python raises
`ValueError` on an empty separator; here an empty separator never matches,
and theorems that could be affected assume `sep ≠ []`.) -/
def pySplit (sep xs : List Char) : List (List Char) :=
  pySplitGo sep xs.length xs []

instance {ε α : Type} [DecidableEq ε] [DecidableEq α] : DecidableEq (Except ε α) :=
  fun a b =>
    match a, b with
    | Except.ok x, Except.ok y =>
      if h : x = y then Decidable.isTrue (congrArg Except.ok h)
      else Decidable.isFalse (fun hc => h (Except.ok.inj hc))
    | Except.error x, Except.error y =>
      if h : x = y then Decidable.isTrue (congrArg Except.error h)
      else Decidable.isFalse (fun hc => h (Except.error.inj hc))
    | Except.ok _, Except.error _ => Decidable.isFalse (fun hc => Except.noConfusion hc)
    | Except.error _, Except.ok _ => Decidable.isFalse (fun hc => Except.noConfusion hc)

/-- Outcome of handling one comma-separated part in `parse_list`
(src/cut.py lines 10-27): a parse failure (`ValueError` from `int`), a
silently dropped part (`-` with both sides empty, line 13-14), or one
`(start, end)` pair appended to the range list. -/
inductive PartResult where
  | err : PartResult
  | skip : PartResult
  | range : Int × Option Int → PartResult
deriving DecidableEq

/-- One iteration of the loop in `parse_list` (src/cut.py lines 10-27),
applied to the already-stripped part.  `none` as the second component of
a range models Python's `None` (an open-ended range). -/
def parsePart (part : List Char) : PartResult :=
  if '-' ∈ part then
    if (splitOnce '-' part).1 = [] ∧ (splitOnce '-' part).2 = [] then
      PartResult.skip
    else if (splitOnce '-' part).1 = [] then
      match pyInt (splitOnce '-' part).2 with
      | some e => PartResult.range (1, some e)
      | none => PartResult.err
    else if (splitOnce '-' part).2 = [] then
      match pyInt (splitOnce '-' part).1 with
      | some s => PartResult.range (s, none)
      | none => PartResult.err
    else
      match pyInt (splitOnce '-' part).1, pyInt (splitOnce '-' part).2 with
      | some s, some e => PartResult.range (s, some e)
      | _, _ => PartResult.err
  else
    match pyInt part with
    | some v => PartResult.range (v, some v)
    | none => PartResult.err

/-- Folds `parsePart` over the comma-separated parts, propagating the
first failure, exactly as the Python loop raises out of `parse_list`. -/
def parse_parts : List (List Char) → Except Unit (List (Int × Option Int))
  | [] => Except.ok []
  | p :: ps =>
    match parsePart (pyStrip p) with
    | PartResult.err => Except.error ()
    | PartResult.skip => parse_parts ps
    | PartResult.range r =>
      match parse_parts ps with
      | Except.ok rest => Except.ok (r :: rest)
      | Except.error e => Except.error e

/-- Embedding of `parse_list` (src/cut.py lines 7-28): split the
specification on commas, strip each part, and parse it.  `Except.error ()`
models an uncaught `ValueError` from `int`. -/
def parse_list (list_str : List Char) : Except Unit (List (Int × Option Int)) :=
  parse_parts (pySplit [','] list_str)

/-- The numeric tokens of one (already stripped) comma-separated part:
the substrings of the part that `parse_list` feeds to `int`.  A dropped
part (a bare `-`) has none. -/
def numericTokens (part : List Char) : List (List Char) :=
  if '-' ∈ part then
    if (splitOnce '-' part).1 = [] ∧ (splitOnce '-' part).2 = [] then []
    else if (splitOnce '-' part).1 = [] then [(splitOnce '-' part).2]
    else if (splitOnce '-' part).2 = [] then [(splitOnce '-' part).1]
    else [(splitOnce '-' part).1, (splitOnce '-' part).2]
  else [part]

/-- One iteration of the loop in `build_selection` (src/cut.py lines
32-39).  After the Python statement `if end is None: end = length` the
loop variable `end` holds an integer, so we track it as `e : Int`; the
Boolean `endIsNone` records the value of the Python test `end is None`
at the `elif` on line 38, which is `False` there because `end` was just
rebound to an integer (the `elif` branch is therefore dead code, and the
embedding preserves it verbatim). -/
def build_step (length : Nat) (selection : Finset Int) (r : Int × Option Int) :
    Finset Int :=
  let start := r.1
  let e : Int :=
    match r.2 with
    | none => (length : Int)
    | some v => v
  let e := min e (length : Int)
  let endIsNone : Bool := false
  if start ≤ e ∧ e ≤ (length : Int) then selection ∪ Finset.Icc start e
  else if start ≤ (length : Int) ∧ endIsNone = true then
    selection ∪ Finset.Icc start (length : Int)
  else selection

/-- Embedding of `build_selection` (src/cut.py lines 30-40): resolve each
range against the record length and collect the selected 1-indexed
positions.  Python's `set` of `int` is a `Finset Int`. -/
def build_selection (ranges : List (Int × Option Int)) (length : Nat) : Finset Int :=
  ranges.foldl (build_step length) ∅

/-- Embedding of `complement_selection` (src/cut.py lines 42-44):
`set(range(1, length+1)) - selection`. -/
def complement_selection (selection : Finset Int) (length : Nat) : Finset Int :=
  Finset.Icc 1 (length : Int) \ selection

/-- Insertion sort of a multiset of integers (well defined because
permutations of a list have the same sorted form).  This plays the role
of Mathlib's `Multiset.sort` but is kernel-evaluable on concrete sets. -/
def msort (v : Multiset Int) : List Int :=
  Quot.liftOn v (fun l => List.insertionSort (· ≤ ·) l)
    (fun a b h =>
      List.eq_of_perm_of_sorted
        ((List.perm_insertionSort _ a).trans (h.trans (List.perm_insertionSort _ b).symm))
        (List.sorted_insertionSort _ a) (List.sorted_insertionSort _ b))

/-- Model of Python `sorted(selection)`: the elements of the set in
increasing order. -/
def pySorted (s : Finset Int) : List Int :=
  msort s.val

/-- Model of Python sequence indexing `xs[i]`: defined for
`-len xs ≤ i < len xs`, with negative indices counting from the end;
`none` models `IndexError`. -/
def pyIndex {α : Type} (xs : List α) (i : Int) : Option α :=
  if 0 ≤ i then xs.get? i.toNat
  else if -(xs.length : Int) ≤ i then xs.get? ((xs.length : Int) + i).toNat
  else none

/-- Evaluates `f` at every element of the list left to right, failing as a
whole as soon as one element fails: the model of a Python comprehension
`[xs[i-1] for i in ...]` in which an `IndexError` aborts the whole
construction. -/
def mapOption {α β : Type} (f : α → Option β) : List α → Option (List β)
  | [] => some []
  | a :: as =>
    match f a, mapOption f as with
    | some b, some bs => some (b :: bs)
    | _, _ => none

/-- UTF-8 encoding of one Unicode scalar value.  Lean's `Char` carries
exactly the valid scalar values, so the `'replace'` error handler of
Python's `str.encode` (which only fires on surrogates) never triggers and
the encoding is total. -/
def utf8Bytes (c : Char) : List Nat :=
  let n := c.toNat
  if n < 0x80 then [n]
  else if n < 0x800 then [0xC0 + n / 64, 0x80 + n % 64]
  else if n < 0x10000 then [0xE0 + n / 4096, 0x80 + n / 64 % 64, 0x80 + n % 64]
  else [0xF0 + n / 262144, 0x80 + n / 4096 % 64, 0x80 + n / 64 % 64, 0x80 + n % 64]

/-- Embedding of `process_bytes` (src/cut.py lines 46-53) up to the
selected byte sequence: encode the line to UTF-8, build (and optionally
complement) the selection over the byte count, and index the bytes by
each sorted selected position.  `none` models an `IndexError` escaping
the comprehension on line 52.  The trailing
`.decode('utf-8', 'replace')` of line 53 is a total function of the
returned bytes (the `'replace'` handler substitutes U+FFFD and never
fails) and is not needed by any claim, so it is left unmodelled. -/
def process_bytes (line : List Char) (ranges : List (Int × Option Int))
    (complement : Bool) : Option (List Nat) :=
  let b_line := line.flatMap utf8Bytes
  let length := b_line.length
  let selection := build_selection ranges length
  let selection := if complement then complement_selection selection length else selection
  mapOption (fun i => pyIndex b_line (i - 1)) (pySorted selection)

/-- Embedding of `process_chars` (src/cut.py lines 55-60): build (and
optionally complement) the selection over the character count and index
the line by each sorted selected position; `none` models an `IndexError`
escaping the generator on line 60 (`''.join` merely concatenates the
characters, so the result is the selected character list). -/
def process_chars (line : List Char) (ranges : List (Int × Option Int))
    (complement : Bool) : Option (List Char) :=
  let length := line.length
  let selection := build_selection ranges length
  let selection := if complement then complement_selection selection length else selection
  mapOption (fun i => pyIndex line (i - 1)) (pySorted selection)

/-- Embedding of `process_fields` (src/cut.py lines 62-76).  The result
`none` models Python's `None` (record suppressed by the only-delimited
policy); `some out` is the output string.  The indexing `fields[i-1]` on
line 73 is guarded by `1 <= i <= length`, so it is always in range and is
rendered with `getD` (the default is never used). -/
def process_fields (line : List Char) (ranges : List (Int × Option Int))
    (delimiter : List Char) (output_delimiter : Option (List Char))
    (only_delimited : Bool) (complement : Bool) : Option (List Char) :=
  let fields := pySplit delimiter line
  let length := fields.length
  if length = 1 ∧ strContains delimiter line = false then
    if only_delimited then none else some line
  else
    let selection := build_selection ranges length
    let selection := if complement then complement_selection selection length else selection
    let selected_fields :=
      ((pySorted selection).filter (fun i => decide (1 ≤ i ∧ i ≤ (length : Int)))).map
        (fun i => fields.getD (i - 1).toNat [])
    let out_delim := output_delimiter.getD delimiter
    some (List.intercalate out_delim selected_fields)

/-- Modelled from the spec: one step of the unified Selection-Builder rule
proposed in the spec's design notes — "end defaults to length, then clamp,
then include `[start, end]` iff `start <= end`". -/
def build_spec_step (length : Nat) (selection : Finset Int) (r : Int × Option Int) :
    Finset Int :=
  let e := min (r.2.getD (length : Int)) (length : Int)
  if r.1 ≤ e then selection ∪ Finset.Icc r.1 e else selection

/-- Modelled from the spec: the unified Selection-Builder rule folded over
the range list, to be compared with `build_selection` for the refinement
claim. -/
def build_selection_spec (ranges : List (Int × Option Int)) (length : Nat) :
    Finset Int :=
  ranges.foldl (build_spec_step length) ∅

/-! ## Helper lemmas -/

lemma mem_msort (v : Multiset Int) (i : Int) : i ∈ msort v ↔ i ∈ v := by
  induction v using Quot.inductionOn with
  | h l =>
    show i ∈ List.insertionSort (· ≤ ·) l ↔ _
    rw [(List.perm_insertionSort (· ≤ ·) l).mem_iff]
    exact Iff.rfl

lemma mem_pySorted (s : Finset Int) (i : Int) : i ∈ pySorted s ↔ i ∈ s := by
  rw [pySorted, mem_msort]
  exact Iff.rfl

lemma build_step_subset {n : Nat} {sel : Finset Int} {r : Int × Option Int}
    (h1 : 1 ≤ r.1) (hs : sel ⊆ Finset.Icc 1 (n : Int)) :
    build_step n sel r ⊆ Finset.Icc 1 (n : Int) := by
  simp only [build_step]
  split_ifs with hc hc2
  · intro x hx
    rcases Finset.mem_union.mp hx with hx | hx
    · exact hs hx
    · rw [Finset.mem_Icc] at hx ⊢
      exact ⟨le_trans h1 hx.1, le_trans hx.2 hc.2⟩
  · exact absurd hc2.2 (by simp)
  · exact hs

lemma foldl_build_subset (n : Nat) :
    ∀ (rs : List (Int × Option Int)) (sel : Finset Int),
      (∀ r ∈ rs, 1 ≤ r.1) → sel ⊆ Finset.Icc 1 (n : Int) →
      rs.foldl (build_step n) sel ⊆ Finset.Icc 1 (n : Int)
  | [], _, _, hs => hs
  | r :: rs, sel, h, hs =>
    foldl_build_subset n rs (build_step n sel r)
      (fun q hq => h q (List.mem_cons_of_mem _ hq))
      (build_step_subset (h r (List.mem_cons_self _ _)) hs)

/-- The effective selection a processor iterates over (the built selection,
or its complement when the flag is set) only holds positions in
`[1, length]` once every range start is at least `1`. -/
lemma effective_selection_subset (n : Nat) (ranges : List (Int × Option Int))
    (comp : Bool) (h : ∀ r ∈ ranges, 1 ≤ r.1) :
    (if comp then complement_selection (build_selection ranges n) n
     else build_selection ranges n) ⊆ Finset.Icc 1 (n : Int) := by
  cases comp
  · exact foldl_build_subset n ranges ∅ h (Finset.empty_subset _)
  · exact Finset.sdiff_subset

lemma mapOption_isSome {α : Type} (xs : List α) :
    ∀ l : List Int, (∀ i ∈ l, 1 ≤ i ∧ i ≤ (xs.length : Int)) →
      (mapOption (fun i => pyIndex xs (i - 1)) l).isSome = true
  | [], _ => rfl
  | i :: is, h => by
    have hi := h i (List.mem_cons_self _ _)
    have hrest := mapOption_isSome xs is (fun j hj => h j (List.mem_cons_of_mem _ hj))
    have hidx : (pyIndex xs (i - 1)).isSome = true := by
      unfold pyIndex
      rw [if_pos (by omega : (0 : Int) ≤ i - 1)]
      rw [List.get?_eq_get (by omega : (i - 1).toNat < xs.length)]
      rfl
    obtain ⟨b, hb⟩ := Option.isSome_iff_exists.mp hidx
    obtain ⟨bs, hbs⟩ := Option.isSome_iff_exists.mp hrest
    simp [mapOption, hb, hbs]

lemma strContains_cons_false {sep : List Char} {c : Char} {rest : List Char}
    (h : strContains sep (c :: rest) = false) :
    strStarts sep (c :: rest) = false ∧ strContains sep rest = false := by
  have h2 := h
  unfold strContains at h2
  exact Bool.or_eq_false_iff.mp h2

lemma pySplitGo_no_occ (sep : List Char) :
    ∀ (fuel : Nat) (xs acc : List Char), strContains sep xs = false →
      pySplitGo sep fuel xs acc = [acc.reverse ++ xs]
  | fuel, [], acc, _ => by cases fuel <;> simp [pySplitGo]
  | 0, _ :: _, _, _ => rfl
  | fuel + 1, c :: rest, acc, h => by
    obtain ⟨h1, h2⟩ := strContains_cons_false h
    unfold pySplitGo
    rw [if_neg (fun hc => by rw [h1] at hc; exact Bool.false_ne_true hc.2)]
    rw [pySplitGo_no_occ sep fuel rest (c :: acc) h2]
    simp

lemma pySplit_no_occ {sep line : List Char} (h : strContains sep line = false) :
    pySplit sep line = [line] :=
  pySplitGo_no_occ sep line.length line [] h

lemma parsePart_err_iff (q : List Char) :
    parsePart q = PartResult.err ↔ ∃ t ∈ numericTokens q, pyInt t = none := by
  unfold parsePart numericTokens
  split_ifs with h1 h2 h3 h4
  · simp
  · cases hE : pyInt (splitOnce '-' q).2 <;> simp [hE]
  · cases hS : pyInt (splitOnce '-' q).1 <;> simp [hS]
  · cases hS : pyInt (splitOnce '-' q).1 <;> cases hE : pyInt (splitOnce '-' q).2 <;>
      simp [hS, hE]
  · cases hV : pyInt q <;> simp [hV]

lemma parse_parts_err_iff :
    ∀ ps : List (List Char),
      parse_parts ps = Except.error () ↔
        ∃ p ∈ ps, parsePart (pyStrip p) = PartResult.err
  | [] => by simp [parse_parts]
  | p :: ps => by
    have ih := parse_parts_err_iff ps
    unfold parse_parts
    cases hp : parsePart (pyStrip p) with
    | err => simp [hp]
    | skip => rw [ih]; simp [hp]
    | range r =>
      cases hr : parse_parts ps with
      | ok rest =>
        rw [hr] at ih
        simp only [List.mem_cons]
        constructor
        · intro hcontra; exact absurd hcontra (by simp)
        · rintro ⟨p', hp' | hp', hf⟩
          · rw [hp'] at hf; rw [hp] at hf; exact absurd hf (by simp)
          · exact absurd (ih.mpr ⟨p', hp', hf⟩) (by simp)
      | error e =>
        rw [hr] at ih
        cases e
        simp only [List.mem_cons]
        constructor
        · intro _
          obtain ⟨p', hp', hf⟩ := ih.mp rfl
          exact ⟨p', Or.inr hp', hf⟩
        · intro _; trivial

lemma build_step_eq_spec (n : Nat) (sel : Finset Int) (r : Int × Option Int) :
    build_step n sel r = build_spec_step n sel r := by
  simp only [build_step, build_spec_step]
  have he : (match r.2 with | none => (n : Int) | some v => v) = r.2.getD (n : Int) := by
    cases r.2 <;> rfl
  rw [he]
  have hle : min (r.2.getD (n : Int)) (n : Int) ≤ (n : Int) := min_le_right _ _
  by_cases hc : r.1 ≤ min (r.2.getD (n : Int)) (n : Int)
  · rw [if_pos ⟨hc, hle⟩, if_pos hc]
  · rw [if_neg (fun hh => hc hh.1), if_neg hc,
      if_neg (fun hh => Bool.false_ne_true hh.2)]

lemma foldl_congr_step {f g : Finset Int → Int × Option Int → Finset Int}
    (h : ∀ s r, f s r = g s r) :
    ∀ (rs : List (Int × Option Int)) (s : Finset Int), rs.foldl f s = rs.foldl g s
  | [], _ => rfl
  | r :: rs, s => by
    rw [List.foldl_cons, List.foldl_cons, h, foldl_congr_step h rs]

/-! ## Claim theorems -/

/-- C1 (counterexample): the claim "for every range-list string `s`
accepted by `parse_list` and every length `n`, the built selection is a
subset of `{1..n}`" is false as stated: `parse_list` accepts the string
`"0"`, and the resulting selection at length `1` contains the position
`0`, which is outside `{1..1}`. -/
theorem build_selection_zero_not_subset :
    parse_list "0".data = Except.ok [(0, some 0)] ∧
      ¬ build_selection [((0 : Int), some (0 : Int))] 1 ⊆ Finset.Icc 1 1 :=
  ⟨by decide, by decide⟩

/-- C1 (amended): for every range-list string `s` accepted by `parse_list`
all of whose parsed ranges have start at least `1`, and every record
length `n`, `build_selection (parse_list s) n` is a subset of `{1..n}`. -/
theorem build_selection_subset_of_one_le_start (s : List Char)
    (rs : List (Int × Option Int)) (n : Nat)
    (_hp : parse_list s = Except.ok rs) (h : ∀ r ∈ rs, 1 ≤ r.1) :
    build_selection rs n ⊆ Finset.Icc 1 (n : Int) :=
  foldl_build_subset n rs ∅ h (Finset.empty_subset _)

/-- Witness for C1's amended theorem at `s = "1-2"`, `n = 3`. -/
theorem build_selection_subset_witness :
    build_selection [((1 : Int), some (2 : Int))] 3 ⊆ Finset.Icc 1 3 :=
  build_selection_subset_of_one_le_start "1-2".data [(1, some 2)] 3
    (by decide) (by decide)

/-- C2 (counterexample): the claim "positions produced by the builder (and
complement) are at most the record length, so the processors' indexing
never fails" is false as stated.  `parse_list` accepts `"0"`; on the empty
record the built selection is `{0}` — every element of which is indeed at
most the length `0` — yet character-mode processing of the empty record
fails (Python `line[-1]` raises `IndexError`), modelled by `none`. -/
theorem process_chars_position_zero_fails :
    parse_list "0".data = Except.ok [(0, some 0)] ∧
      (∀ i ∈ build_selection [((0 : Int), some (0 : Int))] 0, i ≤ (0 : Int)) ∧
      process_chars [] [((0 : Int), some (0 : Int))] false = none :=
  ⟨by decide, by decide, by decide⟩

/-- C2 (amended): for every parsed range list all of whose starts are at
least `1` and every record, every position in the effective selection
(built, then complemented when the flag is set) lies in `[1, length]`, and
byte-mode and character-mode processing never fail. -/
theorem processors_safe_of_one_le_start (line : List Char)
    (ranges : List (Int × Option Int)) (comp : Bool)
    (h : ∀ r ∈ ranges, 1 ≤ r.1) :
    (∀ i ∈ (if comp then
        complement_selection (build_selection ranges line.length) line.length
      else build_selection ranges line.length),
        1 ≤ i ∧ i ≤ (line.length : Int)) ∧
    (process_chars line ranges comp).isSome = true ∧
    (process_bytes line ranges comp).isSome = true := by
  refine ⟨fun i hi => Finset.mem_Icc.mp
    (effective_selection_subset line.length ranges comp h hi), ?_, ?_⟩
  · unfold process_chars
    apply mapOption_isSome
    intro i hi
    exact Finset.mem_Icc.mp
      (effective_selection_subset line.length ranges comp h ((mem_pySorted _ _).mp hi))
  · unfold process_bytes
    apply mapOption_isSome
    intro i hi
    exact Finset.mem_Icc.mp
      (effective_selection_subset (line.flatMap utf8Bytes).length ranges comp h
        ((mem_pySorted _ _).mp hi))

/-- Witness for C2's amended theorem at line `"ab"`, ranges `[(1, 2)]`,
complement off. -/
theorem processors_safe_witness :
    (∀ i ∈ (if false then
        complement_selection (build_selection [((1 : Int), some (2 : Int))]
          ("ab".data).length) ("ab".data).length
      else build_selection [((1 : Int), some (2 : Int))] ("ab".data).length),
        1 ≤ i ∧ i ≤ (("ab".data).length : Int)) ∧
    (process_chars "ab".data [((1 : Int), some (2 : Int))] false).isSome = true ∧
    (process_bytes "ab".data [((1 : Int), some (2 : Int))] false).isSome = true :=
  processors_safe_of_one_le_start "ab".data [(1, some 2)] false (by decide)

/-- C3: in field mode, for every line with zero occurrences of the
delimiter, if only-delimited is false the output equals the input line
exactly, for every range list, output delimiter, and complement flag. -/
theorem process_fields_passthrough (line : List Char)
    (ranges : List (Int × Option Int)) (delimiter : List Char)
    (output_delimiter : Option (List Char)) (comp : Bool)
    (h : strContains delimiter line = false) :
    process_fields line ranges delimiter output_delimiter false comp = some line := by
  simp only [process_fields, pySplit_no_occ h]
  rw [if_pos ⟨rfl, h⟩]
  rfl

/-- Witness for C3 at line `"abc"`, delimiter `";"`, complement on. -/
theorem process_fields_passthrough_witness :
    process_fields "abc".data [((2 : Int), some (3 : Int))] [';'] none false true =
      some "abc".data :=
  process_fields_passthrough "abc".data [(2, some 3)] [';'] none true (by decide)

/-- C4: for every subset `S` of `{1..n}`, applying the Complement Resolver
twice returns `S`. -/
theorem complement_selection_involutive (S : Finset Int) (n : Nat)
    (h : S ⊆ Finset.Icc 1 (n : Int)) :
    complement_selection (complement_selection S n) n = S := by
  unfold complement_selection
  rw [Finset.sdiff_sdiff_self_left]
  exact Finset.inter_eq_right.mpr h

/-- Witness for C4 at `S = {1}`, `n = 2`. -/
theorem complement_selection_involutive_witness :
    complement_selection (complement_selection {1} 2) 2 = ({1} : Finset Int) :=
  complement_selection_involutive {1} 2 (by decide)

/-- C5: parsing the specification `"-"` alone yields the empty range list,
and building a selection from it yields the empty selection at every
record length — never the full record. -/
theorem parse_list_open_both_empty :
    parse_list "-".data = Except.ok [] ∧
      ∀ n : Nat, build_selection [] n = ∅ :=
  ⟨by decide, fun _ => rfl⟩

/-- C6: `parse_list` fails (with the error modelling Python's uncaught
`ValueError`) exactly when some comma-separated part that is not dropped
contains a numeric token that is not a valid integer under the host's
numeric parsing (`pyInt`, the model of Python `int`).  The failure is a
property of the specification string alone — `parse_list` does not take a
record — so it occurs once per invocation, not per record. -/
theorem parse_list_error_iff (s : List Char) :
    parse_list s = Except.error () ↔
      ∃ p ∈ pySplit [','] s, ∃ t ∈ numericTokens (pyStrip p), pyInt t = none := by
  rw [parse_list, parse_parts_err_iff]
  simp only [parsePart_err_iff]

/-- C7: `build_selection` is extensionally equal to the simpler rule from
the spec's design notes ("end defaults to length, then clamp, then include
`[start, end]` iff `start ≤ end`"), for every range list and every length,
including length `0`: the defensive `elif` branch of the source is dead
code because the loop variable `end` has already been rebound to an
integer when `end is None` is re-tested. -/
theorem build_selection_eq_spec (ranges : List (Int × Option Int)) (n : Nat) :
    build_selection ranges n = build_selection_spec ranges n :=
  foldl_congr_step (build_step_eq_spec n) ranges ∅

/-- C8: in field mode with input delimiter `","`, range specification
`"2,4"`, no explicit output delimiter, complement off and only-delimited
off, the input line `"a,b,c,d,e"` produces exactly `"b,d"`. -/
theorem process_fields_example :
    parse_list "2,4".data = Except.ok [(2, some 2), (4, some 4)] ∧
      process_fields "a,b,c,d,e".data [((2 : Int), some (2 : Int)), (4, some 4)]
        [','] none false false = some "b,d".data :=
  ⟨by decide, by decide⟩

/-- C9: for every input set `S` — even one containing positions outside
`{1..n}` — and every length `n`, the complement is a subset of `{1..n}`;
consequently every position a processor iterates over (the sorted
complement) lies in `{1..n}`. -/
theorem complement_selection_subset_Icc (S : Finset Int) (n : Nat) :
    complement_selection S n ⊆ Finset.Icc 1 (n : Int) ∧
      ∀ i ∈ pySorted (complement_selection S n), 1 ≤ i ∧ i ≤ (n : Int) := by
  refine ⟨Finset.sdiff_subset, fun i hi => ?_⟩
  exact Finset.mem_Icc.mp (Finset.sdiff_subset ((mem_pySorted _ _).mp hi))

/-- C10: for every nonempty delimiter (Python's `str.split` is undefined —
raises `ValueError` — on an empty separator), `process_fields` returns the
distinct "no output" outcome (`none`) if and only if only-delimited is set
and the delimiter does not occur in the line; in every other case it
returns a string. -/
theorem process_fields_none_iff (line : List Char)
    (ranges : List (Int × Option Int)) (delimiter : List Char)
    (output_delimiter : Option (List Char)) (odl comp : Bool)
    (_hd : delimiter ≠ []) :
    process_fields line ranges delimiter output_delimiter odl comp = none ↔
      (odl = true ∧ strContains delimiter line = false) := by
  simp only [process_fields]
  by_cases hc : (pySplit delimiter line).length = 1 ∧ strContains delimiter line = false
  · rw [if_pos hc]
    cases odl
    · simp [hc.2]
    · simp [hc.2]
  · rw [if_neg hc]
    constructor
    · intro hcontra; exact absurd hcontra (by simp)
    · rintro ⟨_, h2⟩
      exact absurd ⟨by rw [pySplit_no_occ h2]; rfl, h2⟩ hc

/-- Witness for C10 at line `"abc"`, delimiter `","`, only-delimited on. -/
theorem process_fields_none_iff_witness :
    process_fields "abc".data [((1 : Int), some (1 : Int))] [','] none true false =
        none ↔
      (true = true ∧ strContains [','] "abc".data = false) :=
  process_fields_none_iff "abc".data [(1, some 1)] [','] none true false (by decide)

/-! ## Sanity evaluations (the spec's worked examples) -/

example : parse_list "1,3-5,8-".data =
    Except.ok [(1, some 1), (3, some 5), (8, none)] := by decide
example : parse_list "-".data = Except.ok [] := by decide
example : parse_list "0".data = Except.ok [(0, some 0)] := by decide
example : parse_list "2,4".data = Except.ok [(2, some 2), (4, some 4)] := by decide
example : parse_list "1-2-3".data = Except.error () := by decide
example : parse_list " 7 , -4".data = Except.ok [(7, some 7), (1, some 4)] := by decide
example : pyInt "1_0".data = some 10 := by decide
example : pyInt "1__0".data = none := by decide
example : pyInt "-12".data = some (-12) := by decide
example : pySplit [','] "a,b,,c".data = ["a".data, "b".data, [], "c".data] := by decide
example : pySplit "aa".data "aaa".data = [[], "a".data] := by decide
example : build_selection [(1, some 3)] 5 = {1, 2, 3} := by decide
example : build_selection [(0, some 0)] 1 = {0} := by decide
example : build_selection [(8, none)] 5 = ∅ := by decide
example : pySorted {4, 1, 3} = [1, 3, 4] := by decide
example : process_chars "hello".data [(1, some 3)] false = some "hel".data := by decide
example : process_chars "hello".data [(1, some 3)] true = some "lo".data := by decide
example : process_chars [] [(0, some 0)] false = none := by decide
example : process_bytes "abcde".data [(1, none)] false =
    some [97, 98, 99, 100, 101] := by decide
example : process_fields "a,b,c,d,e".data [(2, some 2), (4, some 4)] [','] none
    false false = some "b,d".data := by decide
example : process_fields "noseparatorhere".data [(2, some 2)] [','] none
    false false = some "noseparatorhere".data := by decide
example : process_fields "noseparatorhere".data [(2, some 2)] [','] none
    true false = none := by decide
